import Mathlib

/-!
Verification of `src/infrabot/utils/file_cache.py` (skybot repository).

The module provides:
* `recursive_hash` — a bounded-depth structural MD5 fingerprint of arbitrary
  Python values, with an exclusion list `ignore_params`;
* `hash_code` — MD5 hexdigest of a source-code string;
* `file_cache` — a decorator whose `wrapper` derives a cache key from the
  call arguments, the wrapped function's source hash, and a disambiguating
  `_n_attempt_cache_id` parameter, then performs a lookup-or-compute-and-store
  protocol against a pickle-file store.

This file embeds those functions shallowly:
* MD5 is implemented over `Nat` (words are kept below `2 ^ 32` with explicit
  `% 2 ^ 32`), byte lists stand for Python `bytes`, and `String` values are
  UTF-8 encoded exactly as Python's `str.encode()` does.
* Python values are an inductive `Value`; floats and bytes are carried by the
  text that Python's `str()` would render for them, since `recursive_hash`
  only ever consumes that text.
* The pickle store is a name-to-blob association list; `pickle.dump` /
  `pickle.load` are caller-supplied fallible codecs (`Option`-valued), and an
  exception raised by the wrapped function is an `Except.error`.
* The filesystem side effects that do not influence the cached values
  (`os.makedirs`, the `verbose` print, logging) are not modelled.
-/

set_option autoImplicit false
set_option maxRecDepth 100000

namespace FileCache

/-! ## MD5 over `Nat` (RFC 1321) -/

/-- UTF-8 encoding of a single character, as Python's `str.encode()` produces
for each code point. -/
def utf8Char (c : Char) : List Nat :=
  let n := c.toNat
  if n < 128 then [n]
  else if n < 2048 then [192 + n / 64, 128 + n % 64]
  else if n < 65536 then [224 + n / 4096, 128 + n / 64 % 64, 128 + n % 64]
  else [240 + n / 262144, 128 + n / 4096 % 64, 128 + n / 64 % 64, 128 + n % 64]

/-- UTF-8 byte encoding of a string (Python `s.encode()`). -/
def strToBytes (s : String) : List Nat :=
  (s.data.map utf8Char).flatten

/-- Per-round shift amounts of MD5. -/
def md5S : List Nat :=
  [7, 12, 17, 22, 7, 12, 17, 22, 7, 12, 17, 22, 7, 12, 17, 22,
   5, 9, 14, 20, 5, 9, 14, 20, 5, 9, 14, 20, 5, 9, 14, 20,
   4, 11, 16, 23, 4, 11, 16, 23, 4, 11, 16, 23, 4, 11, 16, 23,
   6, 10, 15, 21, 6, 10, 15, 21, 6, 10, 15, 21, 6, 10, 15, 21]

/-- Per-round additive constants of MD5 (`floor(abs(sin(i + 1)) * 2 ^ 32)`). -/
def md5K : List Nat :=
  [0xd76aa478, 0xe8c7b756, 0x242070db, 0xc1bdceee,
   0xf57c0faf, 0x4787c62a, 0xa8304613, 0xfd469501,
   0x698098d8, 0x8b44f7af, 0xffff5bb1, 0x895cd7be,
   0x6b901122, 0xfd987193, 0xa679438e, 0x49b40821,
   0xf61e2562, 0xc040b340, 0x265e5a51, 0xe9b6c7aa,
   0xd62f105d, 0x02441453, 0xd8a1e681, 0xe7d3fbc8,
   0x21e1cde6, 0xc33707d6, 0xf4d50d87, 0x455a14ed,
   0xa9e3e905, 0xfcefa3f8, 0x676f02d9, 0x8d2a4c8a,
   0xfffa3942, 0x8771f681, 0x6d9d6122, 0xfde5380c,
   0xa4beea44, 0x4bdecfa9, 0xf6bb4b60, 0xbebfbc70,
   0x289b7ec6, 0xeaa127fa, 0xd4ef3085, 0x04881d05,
   0xd9d4d039, 0xe6db99e5, 0x1fa27cf8, 0xc4ac5665,
   0xf4292244, 0x432aff97, 0xab9423a7, 0xfc93a039,
   0x655b59c3, 0x8f0ccc92, 0xffeff47d, 0x85845dd1,
   0x6fa87e4f, 0xfe2ce6e0, 0xa3014314, 0x4e0811a1,
   0xf7537e82, 0xbd3af235, 0x2ad7d2bb, 0xeb86d391]

/-- Left rotation of a 32-bit word held as a `Nat` below `2 ^ 32`. -/
def rotl32 (x s : Nat) : Nat :=
  ((x <<< s) ||| (x >>> (32 - s))) % 2 ^ 32

/-- The round function of MD5, choosing F, G, H or I by round index. -/
def md5F (i b c d : Nat) : Nat :=
  if i < 16 then (b &&& c) ||| ((b ^^^ 0xffffffff) &&& d)
  else if i < 32 then (d &&& b) ||| ((d ^^^ 0xffffffff) &&& c)
  else if i < 48 then b ^^^ c ^^^ d
  else c ^^^ (b ||| (d ^^^ 0xffffffff))

/-- Message-word index used at round `i`. -/
def md5G (i : Nat) : Nat :=
  if i < 16 then i
  else if i < 32 then (5 * i + 1) % 16
  else if i < 48 then (3 * i + 5) % 16
  else (7 * i) % 16

/-- One round of the MD5 compression function on state `(a, b, c, d)`. -/
def md5Round (m : List Nat) (st : Nat × Nat × Nat × Nat) (i : Nat) :
    Nat × Nat × Nat × Nat :=
  let a := st.1
  let b := st.2.1
  let c := st.2.2.1
  let d := st.2.2.2
  let f := (md5F i b c d + a + md5K.getD i 0 + m.getD (md5G i) 0) % 2 ^ 32
  (d, (b + rotl32 f (md5S.getD i 0)) % 2 ^ 32, b, c)

/-- Process one 16-word chunk, adding the mixed state back into the running
state modulo `2 ^ 32`. -/
def md5Block (st : Nat × Nat × Nat × Nat) (m : List Nat) :
    Nat × Nat × Nat × Nat :=
  let r := (List.range 64).foldl (md5Round m) st
  ((st.1 + r.1) % 2 ^ 32, (st.2.1 + r.2.1) % 2 ^ 32,
   (st.2.2.1 + r.2.2.1) % 2 ^ 32, (st.2.2.2 + r.2.2.2) % 2 ^ 32)

/-- Little-endian bytes of the 64-bit bit-length trailer. -/
def leLenBytes (bitLen : Nat) : List Nat :=
  (List.range 8).map (fun i => bitLen / 256 ^ i % 256)

/-- MD5 padding: `0x80`, zeros to 56 mod 64, then the 64-bit little-endian
bit length. -/
def md5Pad (msg : List Nat) : List Nat :=
  let len := msg.length
  let padLen := (55 + 64 - len % 64) % 64
  msg ++ [128] ++ List.replicate padLen 0 ++ leLenBytes (8 * len % 2 ^ 64)

/-- Split a byte list into 64-byte chunks; fuel-indexed so that it reduces in
the kernel. -/
def toChunksF : Nat → List Nat → List (List Nat)
  | 0, _ => []
  | fuel + 1, l => if l.isEmpty then [] else l.take 64 :: toChunksF fuel (l.drop 64)

/-- Split a byte list into 64-byte chunks. -/
def toChunks (l : List Nat) : List (List Nat) :=
  toChunksF l.length l

/-- The 16 little-endian 32-bit words of one 64-byte chunk. -/
def leWords (chunk : List Nat) : List Nat :=
  (List.range 16).map (fun j =>
    chunk.getD (4 * j) 0 + 256 * chunk.getD (4 * j + 1) 0 +
    65536 * chunk.getD (4 * j + 2) 0 + 16777216 * chunk.getD (4 * j + 3) 0)

/-- Little-endian bytes of one 32-bit state word. -/
def leBytes4 (x : Nat) : List Nat :=
  [x % 256, x / 256 % 256, x / 65536 % 256, x / 16777216 % 256]

/-- The 16 digest bytes produced from a final MD5 state. -/
def md5Finalize (st : Nat × Nat × Nat × Nat) : List Nat :=
  leBytes4 st.1 ++ leBytes4 st.2.1 ++ leBytes4 st.2.2.1 ++ leBytes4 st.2.2.2

/-- The 16 MD5 digest bytes of a byte-list message. -/
def md5DigestBytes (msg : List Nat) : List Nat :=
  md5Finalize ((toChunks (md5Pad msg)).foldl
    (fun st chunk => md5Block st (leWords chunk))
    (0x67452301, 0xefcdab89, 0x98badcfe, 0x10325476))

/-- Big-endian value of a byte list (byte 0 most significant), so that the
digest's 32-nibble hex form is exactly the hex form of this number. -/
def bytesToNat (bs : List Nat) : Nat :=
  bs.foldl (fun acc b => 256 * acc + b) 0

/-- The MD5 digest as a single natural number below `2 ^ 128`. -/
def md5DigestNat (msg : List Nat) : Nat :=
  bytesToNat (md5DigestBytes msg)

/-- Lower-case hex digit. -/
def hexChar (n : Nat) : Char :=
  if n < 10 then Char.ofNat (48 + n) else Char.ofNat (87 + n)

/-- 32-digit zero-padded lower-case hex rendering of a digest number: the
`hexdigest()` string. -/
def natToHex32 (n : Nat) : String :=
  String.mk ((List.range 32).map (fun i => hexChar (n / 16 ^ (31 - i) % 16)))

/-- `hashlib.md5(msg).hexdigest()` for a bytes message. -/
def md5_hexdigest (msg : List Nat) : String :=
  natToHex32 (md5DigestNat msg)

/-- `hashlib.md5(s.encode()).hexdigest()` — the pattern used throughout
`file_cache.py`. -/
def md5_str_hexdigest (s : String) : String :=
  md5_hexdigest (strToBytes s)

/-! ## Python values

`recursive_hash` distinguishes: scalars (`int`, `float`, `str`, `bool`,
`bytes` — all digested via `str(value)`), lists and tuples, dicts, objects
exposing `__dict__` (a string-keyed field dict plus a class name), and an
unrecognized remainder (`vNone`).  Floats and bytes are carried by the text
`str()` renders for them, which is all the source ever reads from them. -/

inductive Value where
  | vInt (n : Int)
  | vFloat (text : String)
  | vStr (s : String)
  | vBool (b : Bool)
  | vBytes (text : String)
  | vList (items : List Value)
  | vTuple (items : List Value)
  | vDict (entries : List (Value × Value))
  | vObj (className : String) (fields : List (String × Value))
  | vNone

/-- Python's `str(value)` for the scalar shapes accepted on line 20 of the
source. -/
def pyStr : Value → String
  | .vInt n => toString n
  | .vFloat t => t
  | .vStr s => s
  | .vBool b => if b then "True" else "False"
  | .vBytes t => t
  | _ => ""

/-- `key not in ignore_params` on line 35: `ignore_params` holds parameter
names (strings), and Python cross-type `==` between a string and a non-string
dict key is `False`, so only string keys can be excluded. -/
def excludedKey (key : Value) (ignore_params : List String) : Bool :=
  match key with
  | .vStr s => ignore_params.contains s
  | _ => false

/-- `MAX_DEPTH = 6` (line 12). -/
def MAX_DEPTH : Nat := 6

/-- The body of `recursive_hash`, indexed by the remaining depth budget
`MAX_DEPTH + 1 - depth` so that the recursion is structural (and hence
kernel-reducible); `recursive_hash` below restores the source's
depth-counting interface, and `recursive_hash_eq_def` proves the source's
defining equation. -/
def rhF : Nat → Value → List String → String
  | 0, _, _ => md5_str_hexdigest "max_depth_reached"
  | fuel + 1, value, ignore_params =>
    match value with
    | .vInt n => md5_str_hexdigest (pyStr (.vInt n))
    | .vFloat t => md5_str_hexdigest (pyStr (.vFloat t))
    | .vStr s => md5_str_hexdigest (pyStr (.vStr s))
    | .vBool b => md5_str_hexdigest (pyStr (.vBool b))
    | .vBytes t => md5_str_hexdigest (pyStr (.vBytes t))
    | .vList items =>
      md5_str_hexdigest (String.join (items.map (fun item => rhF fuel item ignore_params)))
    | .vTuple items =>
      md5_str_hexdigest (String.join (items.map (fun item => rhF fuel item ignore_params)))
    | .vDict entries =>
      md5_str_hexdigest (String.join
        ((entries.filter (fun e => !(excludedKey e.1 ignore_params))).map
          (fun e => rhF fuel e.1 ignore_params ++ rhF fuel e.2 ignore_params)))
    | .vObj className fields =>
      if ignore_params.contains className then md5_str_hexdigest "unknown"
      else rhF fuel (.vDict (fields.map (fun p => (.vStr p.1, p.2)))) ignore_params
    | .vNone => md5_str_hexdigest "unknown"

/-- `recursive_hash(value, depth, ignore_params)` (lines 15–42). -/
def recursive_hash (value : Value) (depth : Nat) (ignore_params : List String) : String :=
  rhF (MAX_DEPTH + 1 - depth) value ignore_params

/-! ## The cache controller (`file_cache` / `decorator` / `wrapper`)

Positional arguments are a `List Value`; keyword arguments and Python dicts
with string keys are association lists `List (String × γ)` in insertion
order, which is Python's dict iteration order.  The pickle store is an
association list from file names to blobs.  `os.makedirs`, the `verbose`
print and the two `logger.info` calls are effect-free for the returned value
and are not modelled. -/

/-- `hash_code(code)` (lines 45–46). -/
def hash_code (code : String) : String :=
  md5_str_hexdigest code

/-- First value stored under a key in an association list, `none` when the
key is absent (`os.path.exists` + read). -/
def lookupKey {γ : Type} : List (String × γ) → String → Option γ
  | [], _ => none
  | p :: rest, k => if p.1 == k then some p.2 else lookupKey rest k

/-- Python dict assignment `d[k] = v`: replaces in place when the key exists,
otherwise appends (insertion order).  Also models `open(file, "wb")`
truncating an existing cache file. -/
def dictSet {γ : Type} (d : List (String × γ)) (k : String) (v : γ) : List (String × γ) :=
  if d.any (fun p => p.1 == k) then d.map (fun p => if p.1 == k then (k, v) else p)
  else d ++ [(k, v)]

/-- The loop on lines 70–72: `d.pop(param, None)` for each ignored name. -/
def popIgnored (d : List (String × Value)) (ignore_params : List String) :
    List (String × Value) :=
  ignore_params.foldl (fun acc param => acc.filter (fun p => !(p.1 == param))) d

/-- A string-keyed record as the Python dict value it is hashed as. -/
def toVDict (d : List (String × Value)) : Value :=
  .vDict (d.map (fun p => (.vStr p.1, p.2)))

/-- `arg_hash` (lines 63–81): hash of the positional record mapped through
the signature (`dict(zip(args_names, args))` minus ignored names), then of
the keyword record (minus ignored names, plus the reserved
`_n_attempt_cache_id` entry), then the function's source hash — concatenated
in that fixed order. -/
def arg_hash (args_names ignore_params : List String) (func_source_code_hash : String)
    (args : List Value) (kwargs : List (String × Value)) (n_attempt : Int) : String :=
  recursive_hash (toVDict (popIgnored (args_names.zip args) ignore_params)) 0 ignore_params ++
  recursive_hash (toVDict (dictSet (popIgnored kwargs ignore_params)
    "_n_attempt_cache_id" (.vInt n_attempt))) 0 ignore_params ++
  func_source_code_hash

/-- `cache_file` (lines 82–84): `os.path.join` of the cache directory with
the module-qualified, hash-suffixed pickle file name. -/
def cache_file (moduleName funcName ah : String) : String :=
  ".cache/file_cache/" ++ moduleName ++ "_" ++ funcName ++ "_" ++ ah ++ ".pickle"

/-- Lines 96–103: compute `result = func(*args, **kwargs)` (its exception, if
any, propagates and nothing is stored), then best-effort `pickle.dump`.  The
final `Bool` records that the body of `func` was invoked. -/
def computeAndStore {α β ε : Type} (f : List Value → List (String × Value) → Except ε α)
    (dump : α → Option β) (file : String) (args : List Value)
    (kwargs : List (String × Value)) (fs : List (String × β)) :
    Except ε α × List (String × β) × Bool :=
  match f args kwargs with
  | .error e => (.error e, fs, true)
  | .ok result =>
    match dump result with
    | some blob => (.ok result, dictSet fs file blob, true)
    | none => (.ok result, fs, true)

/-- Lines 86–103: the lookup-or-compute-and-store protocol against a derived
file name.  A failed existence check, open or `pickle.load` (the `except` on
line 93) is a miss and falls through to recomputation. -/
def wrapperGo {α β ε : Type} (f : List Value → List (String × Value) → Except ε α)
    (dump : α → Option β) (load : β → Option α) (file : String) (args : List Value)
    (kwargs : List (String × Value)) (fs : List (String × β)) :
    Except ε α × List (String × β) × Bool :=
  match lookupKey fs file with
  | some blob =>
    match load blob with
    | some v => (.ok v, fs, false)
    | none => computeAndStore f dump file args kwargs fs
  | none => computeAndStore f dump file args kwargs fs

/-- `wrapper(*args, _n_attempt_cache_id=0, **kwargs)` (lines 59–103), for a
function wrapped by `file_cache(ignore_params)(func)`: `src` is
`inspect.getsource(func)` whose `hash_code` is the behaviour signature
computed on line 56, `args_names` are the positional parameter names from
`func.__code__`, and `fs` is the pickle store. -/
def wrapper {α β ε : Type} (f : List Value → List (String × Value) → Except ε α)
    (dump : α → Option β) (load : β → Option α) (moduleName funcName : String)
    (args_names ignore_params : List String) (src : String) (args : List Value)
    (kwargs : List (String × Value)) (n_attempt : Int) (fs : List (String × β)) :
    Except ε α × List (String × β) × Bool :=
  wrapperGo f dump load
    (cache_file moduleName funcName
      (arg_hash args_names ignore_params (hash_code src) args kwargs n_attempt))
    args kwargs fs

/-- Depth-`k` nesting of singleton lists around a leaf. -/
def nest : Nat → Value → Value
  | 0, v => v
  | k + 1, v => .vList [nest k v]

/-- A pure `square`-style computation, used as a witness fixture. -/
def squareF : List Value → List (String × Value) → Except Unit Value :=
  fun _ _ => .ok (.vInt 16)

/-- The cache-file name derived for the witness calls. -/
def witFile : String := cache_file "m" "f" (arg_hash ["x"] [] (hash_code "s") [.vInt 4] [] 0)

/-- A computation that always raises, used as a witness fixture. -/
def raisingF : List Value → List (String × Value) → Except Unit Value :=
  fun _ _ => .error ()

/-- A `pickle.load` that always fails, used as a witness fixture. -/
def failingLoad : Value → Option Value := fun _ => none

/-- A `pickle.dump` that always fails, used as a witness fixture. -/
def failingDump : Value → Option Value := fun _ => none

/-- `inspect.getsource` text of an exemplar wrapped function before a
body-only change: name `f`, signature `(x)`, body `x * x`. -/
def srcSquare : String := "def f(x):\n    return x * x\n"

/-- The same source text with only the logical body changed
(same name `f`, same signature `(x)`). -/
def srcCube : String := "def f(x):\n    return x * x * x\n"

/-! ## Known-answer checks and the source-shaped defining equation -/

/-- MD5 known-answer test: `md5("1")`. -/
theorem md5_kat_digit_one : md5_str_hexdigest "1" = "c4ca4238a0b923820dcc509a6f75849b" := by
  decide

/-- MD5 known-answer test: the two sentinel texts digest differently. -/
theorem md5_kat_sentinels_differ :
    md5_str_hexdigest "max_depth_reached" ≠ md5_str_hexdigest "unknown" := by decide

/-- The source's defining equation for `recursive_hash`: depth guard first,
then one case per shape, children hashed at `depth + 1`.  This certifies that
the fuel-indexed `rhF` is the function the source defines. -/
theorem recursive_hash_eq_def (value : Value) (depth : Nat) (ignore_params : List String) :
    recursive_hash value depth ignore_params =
      if depth > MAX_DEPTH then md5_str_hexdigest "max_depth_reached"
      else match value with
        | .vInt n => md5_str_hexdigest (pyStr (.vInt n))
        | .vFloat t => md5_str_hexdigest (pyStr (.vFloat t))
        | .vStr s => md5_str_hexdigest (pyStr (.vStr s))
        | .vBool b => md5_str_hexdigest (pyStr (.vBool b))
        | .vBytes t => md5_str_hexdigest (pyStr (.vBytes t))
        | .vList items =>
          md5_str_hexdigest (String.join
            (items.map (fun item => recursive_hash item (depth + 1) ignore_params)))
        | .vTuple items =>
          md5_str_hexdigest (String.join
            (items.map (fun item => recursive_hash item (depth + 1) ignore_params)))
        | .vDict entries =>
          md5_str_hexdigest (String.join
            ((entries.filter (fun e => !(excludedKey e.1 ignore_params))).map
              (fun e => recursive_hash e.1 (depth + 1) ignore_params ++
                recursive_hash e.2 (depth + 1) ignore_params)))
        | .vObj className fields =>
          if ignore_params.contains className then md5_str_hexdigest "unknown"
          else recursive_hash (.vDict (fields.map (fun p => (.vStr p.1, p.2))))
            (depth + 1) ignore_params
        | .vNone => md5_str_hexdigest "unknown" := by
  unfold recursive_hash
  by_cases hd : depth > MAX_DEPTH
  · have h0 : MAX_DEPTH + 1 - depth = 0 := by omega
    rw [h0, if_pos hd]
    cases value <;> rfl
  · have h1 : MAX_DEPTH + 1 - depth = (MAX_DEPTH + 1 - (depth + 1)) + 1 := by omega
    rw [h1, if_neg hd]
    cases value <;> rfl

/-- Composite known-answer test: hashing a singleton list digests the
concatenated element digest. -/
theorem recursive_hash_kat_list :
    recursive_hash (.vList [.vInt 1]) 0 [] = "28c8edde3d61a0411511d3b1866f0636" := by decide

/-- Composite known-answer test: hashing a one-entry dict digests
`md5(md5("a") + md5("1"))`. -/
theorem recursive_hash_kat_dict :
    recursive_hash (.vDict [(.vStr "a", .vInt 1)]) 0 [] =
      "2a8e1417de046830916563cb03dc6e7b" := by decide

/-! ## Helper lemmas -/

theorem natToHex32_length (n : Nat) : (natToHex32 n).length = 32 := rfl

theorem rhF_length (fuel : Nat) :
    ∀ (v : Value) (ig : List String), (rhF fuel v ig).length = 32 := by
  induction fuel with
  | zero => intro v ig; exact natToHex32_length _
  | succ n ih =>
    intro v ig
    cases v with
    | vObj className fields =>
      simp only [rhF]
      by_cases h : ig.contains className
      · rw [if_pos h]; exact natToHex32_length _
      · rw [if_neg h]; exact ih _ _
    | _ => exact natToHex32_length _

theorem lookupKey_dictSet_self {γ : Type} (fs : List (String × γ)) (k : String) (v : γ) :
    lookupKey (dictSet fs k v) k = some v := by
  unfold dictSet
  by_cases hany : fs.any (fun p => p.1 == k)
  · rw [if_pos hany]
    induction fs with
    | nil => simp at hany
    | cons p rest ih =>
      by_cases hp : p.1 == k
      · simp only [List.map_cons, if_pos hp, lookupKey]
        simp
      · simp only [List.map_cons, if_neg hp, lookupKey, hp]
        rw [if_neg (by simpa using hp)]
        apply ih
        simpa [List.any_cons, hp] using hany
  · rw [if_neg hany]
    induction fs with
    | nil => simp [lookupKey]
    | cons p rest ih =>
      simp only [List.any_cons, Bool.or_eq_true, not_or] at hany
      simp only [List.cons_append, lookupKey]
      rw [if_neg hany.1]
      exact ih hany.2

theorem popIgnored_eq_filter (d : List (String × Value)) (ig : List String) :
    popIgnored d ig = d.filter (fun p => !(ig.contains p.1)) := by
  induction ig generalizing d with
  | nil => simp [popIgnored]
  | cons a ig ih =>
    show popIgnored (d.filter fun p => !(p.1 == a)) ig = _
    rw [ih, List.filter_filter]
    apply List.filter_congr
    intro p _
    by_cases h : p.1 = a
    · simp [List.contains_cons, h]
    · simp [List.contains_cons, Bool.not_or, Bool.and_comm, h, (Ne.symm h : ¬a = p.1)]

theorem bytesToNat_go_lt :
    ∀ (bs : List Nat) (acc : Nat), (∀ b ∈ bs, b < 256) →
      List.foldl (fun a b => 256 * a + b) acc bs < (acc + 1) * 256 ^ bs.length := by
  intro bs
  induction bs with
  | nil => intro acc _; simp
  | cons b rest ih =>
    intro acc h
    have hb : b < 256 := h b (by simp)
    have h1 := ih (256 * acc + b) (fun x hx => h x (by simp [hx]))
    calc List.foldl (fun a b => 256 * a + b) (256 * acc + b) rest
        < (256 * acc + b + 1) * 256 ^ rest.length := h1
      _ ≤ ((acc + 1) * 256) * 256 ^ rest.length :=
          Nat.mul_le_mul_right _ (by omega)
      _ = (acc + 1) * 256 ^ (rest.length + 1) := by ring

theorem md5Finalize_mem_lt (st : Nat × Nat × Nat × Nat) :
    ∀ b ∈ md5Finalize st, b < 256 := by
  intro b hb
  simp [md5Finalize, leBytes4] at hb
  rcases hb with h | h | h | h | h | h | h | h | h | h | h | h | h | h | h | h <;> omega

theorem md5DigestBytes_length (msg : List Nat) : (md5DigestBytes msg).length = 16 := rfl

theorem md5DigestNat_lt (msg : List Nat) : md5DigestNat msg < 2 ^ 128 := by
  have h := bytesToNat_go_lt (md5DigestBytes msg) 0
    (md5Finalize_mem_lt _)
  rw [md5DigestBytes_length] at h
  have h2 : (0 + 1) * 256 ^ 16 = 2 ^ 128 := by norm_num
  rw [h2] at h
  exact h

theorem recursive_hash_max_depth (value : Value) (depth : Nat) (ig : List String)
    (hd : depth > MAX_DEPTH) :
    recursive_hash value depth ig = md5_str_hexdigest "max_depth_reached" := by
  have h0 : MAX_DEPTH + 1 - depth = 0 := by omega
  rw [recursive_hash, h0]
  cases value <;> rfl

theorem recursive_hash_unknown (depth : Nat) (ig : List String) (hd : depth ≤ MAX_DEPTH) :
    recursive_hash .vNone depth ig = md5_str_hexdigest "unknown" := by
  have h1 : MAX_DEPTH + 1 - depth = (MAX_DEPTH - depth) + 1 := by omega
  rw [recursive_hash, h1]
  rfl

/-! ## Claims -/

/-- C6: the fingerprinting function is total and terminating (it is a total
Lean function, hence deterministic by construction): for every value, depth
and exclusion set it returns a 32-character digest, and any unrecognized
shape within the depth bound falls back to the fixed sentinel digest of
`"unknown"`. -/
theorem recursive_hash_total_fixed_length :
    ∀ (value : Value) (depth : Nat) (ignore_params : List String),
      (recursive_hash value depth ignore_params).length = 32 ∧
      (depth ≤ MAX_DEPTH →
        recursive_hash .vNone depth ignore_params = md5_str_hexdigest "unknown") := by
  intro value depth ig
  exact ⟨rhF_length _ _ _, recursive_hash_unknown depth ig⟩

theorem recursive_hash_total_fixed_length_witness :
    (recursive_hash (.vStr "a") 0 []).length = 32 ∧ 0 ≤ MAX_DEPTH ∧
      recursive_hash .vNone 0 [] = md5_str_hexdigest "unknown" :=
  ⟨(recursive_hash_total_fixed_length (.vStr "a") 0 []).1, by decide,
    (recursive_hash_total_fixed_length .vNone 0 []).2 (by decide)⟩

/-- C5: once the depth counter exceeds `MAX_DEPTH = 6` the fingerprinter
returns the max-depth sentinel digest without descending, so a structure of
nesting depth 8 fingerprints the same regardless of its depth-8 leaf. -/
theorem depth_bound_collapses_deep_leaves :
    (∀ (value : Value) (depth : Nat) (ignore_params : List String),
        depth > MAX_DEPTH →
          recursive_hash value depth ignore_params =
            md5_str_hexdigest "max_depth_reached") ∧
      ∀ (x y : Value) (ignore_params : List String),
        recursive_hash (nest 8 x) 0 ignore_params =
          recursive_hash (nest 8 y) 0 ignore_params := by
  refine ⟨recursive_hash_max_depth, ?_⟩
  intro x y ig
  rfl

theorem depth_bound_collapses_deep_leaves_witness :
    7 > MAX_DEPTH ∧
      recursive_hash (.vInt 0) 7 [] = md5_str_hexdigest "max_depth_reached" ∧
      recursive_hash (nest 8 (.vInt 1)) 0 [] = recursive_hash (nest 8 (.vInt 2)) 0 [] :=
  ⟨by decide, depth_bound_collapses_deep_leaves.1 (.vInt 0) 7 [] (by decide),
    depth_bound_collapses_deep_leaves.2 (.vInt 1) (.vInt 2) []⟩

/-- C9 counterexample: the max-depth sentinel digest and the
unrecognized-shape sentinel digest are NOT identical — `recursive_hash` of
any value past the depth bound differs from `recursive_hash` of an
unrecognized value within the bound, because `md5("max_depth_reached")` and
`md5("unknown")` differ. -/
theorem sentinel_digests_identical_counterexample :
    recursive_hash (.vInt 0) 7 [] ≠ recursive_hash .vNone 0 [] := by decide

/-- C9 amended: each fallback digest is fixed across all its cases — every
depth overflow yields `md5("max_depth_reached")` and every unrecognized
shape yields `md5("unknown")` — so values hitting the SAME fallback are
indistinguishable, but the two fallback digests differ from each other. -/
theorem sentinel_digests_constant_per_class :
    (∀ (value : Value) (depth : Nat) (ig : List String), depth > MAX_DEPTH →
        recursive_hash value depth ig = md5_str_hexdigest "max_depth_reached") ∧
      (∀ (depth : Nat) (ig : List String), depth ≤ MAX_DEPTH →
        recursive_hash .vNone depth ig = md5_str_hexdigest "unknown") ∧
      md5_str_hexdigest "max_depth_reached" ≠ md5_str_hexdigest "unknown" :=
  ⟨recursive_hash_max_depth, recursive_hash_unknown, by decide⟩

theorem sentinel_digests_constant_per_class_witness :
    7 > MAX_DEPTH ∧
      recursive_hash (.vBool true) 7 [] = md5_str_hexdigest "max_depth_reached" ∧
      1 ≤ MAX_DEPTH ∧
      recursive_hash .vNone 1 [] = md5_str_hexdigest "unknown" :=
  ⟨by decide, sentinel_digests_constant_per_class.1 (.vBool true) 7 [] (by decide),
    by decide, sentinel_digests_constant_per_class.2.1 1 [] (by decide)⟩

/-- C10: distinct values within the depth bound and with no exclusions can
fingerprint identically: scalars are digested via their text, so `1` and
`"1"` collide, `True` and `"True"` collide, and `""`, `[]` and `{}` all
digest the empty text; such arguments then derive the same cache key and
share an entry. -/
theorem distinct_values_equal_fingerprints :
    (Value.vInt 1 ≠ .vStr "1" ∧
      recursive_hash (.vInt 1) 0 [] = recursive_hash (.vStr "1") 0 []) ∧
    (Value.vBool true ≠ .vStr "True" ∧
      recursive_hash (.vBool true) 0 [] = recursive_hash (.vStr "True") 0 []) ∧
    (Value.vStr "" ≠ .vList [] ∧ Value.vList [] ≠ .vDict [] ∧
      recursive_hash (.vStr "") 0 [] = recursive_hash (.vList []) 0 [] ∧
      recursive_hash (.vList []) 0 [] = recursive_hash (.vDict []) 0 []) ∧
    arg_hash ["x"] [] (hash_code "s") [.vInt 1] [] 0 =
      arg_hash ["x"] [] (hash_code "s") [.vStr "1"] [] 0 := by
  refine ⟨⟨?_, rfl⟩, ⟨?_, rfl⟩, ⟨?_, ?_, rfl, rfl⟩, rfl⟩ <;> intro h <;> exact nomatch h

theorem string_append_left_cancel {a b c : String} (h : a ++ b = a ++ c) : b = c := by
  apply String.ext
  have h2 := congrArg String.data h
  rw [String.data_append, String.data_append] at h2
  exact List.append_cancel_left h2

theorem string_append_right_cancel {a b c : String} (h : a ++ c = b ++ c) : a = b := by
  apply String.ext
  have h2 := congrArg String.data h
  rw [String.data_append, String.data_append] at h2
  exact List.append_cancel_right h2

theorem excludedKey_of_mem {k : String} {ig : List String} (hk : k ∈ ig) :
    excludedKey (.vStr k) ig = true := by
  simp only [excludedKey]
  exact List.elem_eq_true_of_mem hk

theorem popIgnored_drop_mid {k : String} {ig : List String} (hk : k ∈ ig)
    (pre post : List (String × Value)) (v : Value) :
    popIgnored (pre ++ (k, v) :: post) ig = popIgnored pre ig ++ popIgnored post ig := by
  have hcont : ig.contains k = true := List.elem_eq_true_of_mem hk
  rw [popIgnored_eq_filter, popIgnored_eq_filter, popIgnored_eq_filter, List.filter_append,
    List.filter_cons]
  simp [hcont, hk]

/-- C3: an entry under an excluded name contributes nothing — two dicts
differing only in the value under an excluded key fingerprint identically,
and two calls differing only in an argument (keyword or positional) whose
parameter name is excluded derive equal cache keys. -/
theorem excluded_name_contributes_nothing (k : String) (ig : List String) (hk : k ∈ ig) :
    (∀ (v1 v2 : Value) (dpre dpost : List (Value × Value)) (d : Nat),
        recursive_hash (.vDict (dpre ++ (.vStr k, v1) :: dpost)) d ig =
          recursive_hash (.vDict (dpre ++ (.vStr k, v2) :: dpost)) d ig) ∧
      (∀ (v1 v2 : Value) (names : List String) (h : String) (args : List Value)
          (kpre kpost : List (String × Value)) (n : Int),
          arg_hash names ig h args (kpre ++ (k, v1) :: kpost) n =
            arg_hash names ig h args (kpre ++ (k, v2) :: kpost) n) ∧
      ∀ (v1 v2 : Value) (npre npost : List String) (h : String)
          (apre apost : List Value) (kwargs : List (String × Value)) (n : Int),
          npre.length = apre.length →
          arg_hash (npre ++ k :: npost) ig h (apre ++ v1 :: apost) kwargs n =
            arg_hash (npre ++ k :: npost) ig h (apre ++ v2 :: apost) kwargs n := by
  have hcont : ig.contains k = true := List.elem_eq_true_of_mem hk
  refine ⟨?_, ?_, ?_⟩
  · intro v1 v2 dpre dpost d
    unfold recursive_hash
    cases MAX_DEPTH + 1 - d with
    | zero => rfl
    | succ fu =>
      simp [rhF, List.filter_append, List.filter_cons, excludedKey_of_mem hk]
  · intro v1 v2 names h args kpre kpost n
    unfold arg_hash
    rw [popIgnored_drop_mid hk, popIgnored_drop_mid hk]
  · intro v1 v2 npre npost h apre apost kwargs n hlen
    unfold arg_hash
    rw [List.zip_append hlen, List.zip_append hlen, List.zip_cons_cons, List.zip_cons_cons,
      popIgnored_drop_mid hk, popIgnored_drop_mid hk]

theorem excluded_name_contributes_nothing_witness :
    "ts" ∈ ["ts"] ∧
      recursive_hash (.vDict ([] ++ (.vStr "ts", .vInt 1) :: [])) 0 ["ts"] =
        recursive_hash (.vDict ([] ++ (.vStr "ts", .vInt 2) :: [])) 0 ["ts"] ∧
      arg_hash [] ["ts"] (hash_code "s") [] ([] ++ ("ts", .vInt 1) :: []) 0 =
        arg_hash [] ["ts"] (hash_code "s") [] ([] ++ ("ts", .vInt 2) :: []) 0 ∧
      arg_hash ([] ++ "ts" :: []) ["ts"] (hash_code "s") ([] ++ .vInt 1 :: []) [] 0 =
        arg_hash ([] ++ "ts" :: []) ["ts"] (hash_code "s") ([] ++ .vInt 2 :: []) [] 0 :=
  ⟨by decide,
    (excluded_name_contributes_nothing "ts" ["ts"] (by decide)).1 (.vInt 1) (.vInt 2) [] [] 0,
    (excluded_name_contributes_nothing "ts" ["ts"] (by decide)).2.1 (.vInt 1) (.vInt 2) []
      (hash_code "s") [] [] [] 0,
    (excluded_name_contributes_nothing "ts" ["ts"] (by decide)).2.2 (.vInt 1) (.vInt 2) [] []
      (hash_code "s") [] [] [] 0 rfl⟩

theorem lookupKey_singleton_ne {γ : Type} (k1 k2 : String) (v : γ) (h : ¬k1 = k2) :
    lookupKey [(k1, v)] k2 = none := by
  simp [lookupKey, h]

theorem cache_file_ne_of_key_ne (mn fn k1 k2 : String) (hne : k1 ≠ k2) :
    cache_file mn fn k1 ≠ cache_file mn fn k2 := by
  intro heq
  unfold cache_file at heq
  exact hne (string_append_left_cancel (string_append_right_cancel heq))

/-- C4: changing only the logical body of the wrapped computation changes
its behaviour signature `hash_code(src)` and with it the cache key.  The
spec (§3) scopes fingerprint identity as a best-effort digest identity, so
"the source text changed" is measured by that signature: the cache key
changes exactly when the signature changes (an equivalence, since the
signature is string-concatenated as the final component of every key), and
for the exemplar body-only change `x * x` → `x * x * x` (same name, same
signature, same call arguments) the signatures decidably differ, hence the
keys differ, the derived file names differ, and the next call misses a
store holding only the old entry. -/
theorem behavior_signature_binds_key :
    (∀ (s1 s2 : String) (names ig : List String) (args : List Value)
        (kwargs : List (String × Value)) (n : Int),
        arg_hash names ig (hash_code s1) args kwargs n =
            arg_hash names ig (hash_code s2) args kwargs n ↔
          hash_code s1 = hash_code s2) ∧
      (∀ (names ig : List String) (h : String) (args : List Value)
          (kwargs : List (String × Value)) (n : Int),
          ∃ p, arg_hash names ig h args kwargs n = p ++ h) ∧
      (hash_code srcSquare ≠ hash_code srcCube ∧
        arg_hash ["x"] [] (hash_code srcSquare) [.vInt 4] [] 0 ≠
          arg_hash ["x"] [] (hash_code srcCube) [.vInt 4] [] 0 ∧
        cache_file "m" "f" (arg_hash ["x"] [] (hash_code srcSquare) [.vInt 4] [] 0) ≠
          cache_file "m" "f" (arg_hash ["x"] [] (hash_code srcCube) [.vInt 4] [] 0) ∧
        ∀ blob : Value,
          lookupKey [(cache_file "m" "f"
              (arg_hash ["x"] [] (hash_code srcSquare) [.vInt 4] [] 0), blob)]
            (cache_file "m" "f"
              (arg_hash ["x"] [] (hash_code srcCube) [.vInt 4] [] 0)) = none) := by
  have hsig : hash_code srcSquare ≠ hash_code srcCube := by decide
  have hkey : arg_hash ["x"] [] (hash_code srcSquare) [.vInt 4] [] 0 ≠
      arg_hash ["x"] [] (hash_code srcCube) [.vInt 4] [] 0 :=
    fun heq => hsig (string_append_left_cancel heq)
  have hfile := cache_file_ne_of_key_ne "m" "f" _ _ hkey
  refine ⟨?_, ?_, hsig, hkey, hfile, ?_⟩
  · intro s1 s2 names ig args kwargs n
    constructor
    · exact fun heq => string_append_left_cancel heq
    · intro h
      unfold arg_hash
      rw [h]
  · intro names ig h args kwargs n
    exact ⟨_, rfl⟩
  · intro blob
    exact lookupKey_singleton_ne _ _ _ hfile

theorem popIgnored_key_absent (kwargs : List (String × Value)) (ig : List String)
    (k : String) (hk : k ∈ ig) :
    (popIgnored kwargs ig).any (fun p => p.1 == k) = false := by
  rw [popIgnored_eq_filter, List.any_eq_false]
  intro p hp
  obtain ⟨-, hpf⟩ := List.mem_filter.mp hp
  intro hpk
  have hpk2 : p.1 = k := by simpa using hpk
  have hc : ig.contains k = true := List.elem_eq_true_of_mem hk
  rw [hpk2, hc] at hpf
  simp at hpf

theorem dictSet_of_key_absent {γ : Type} (l : List (String × γ)) (k : String) (v : γ)
    (h : l.any (fun p => p.1 == k) = false) : dictSet l k v = l ++ [(k, v)] := by
  simp [dictSet, h]

theorem recursive_hash_drop_trailing_excluded (l : List (String × Value))
    (ig : List String) (k : String) (v : Value) (hk : k ∈ ig) :
    recursive_hash (toVDict (l ++ [(k, v)])) 0 ig = recursive_hash (toVDict l) 0 ig := by
  rw [recursive_hash_eq_def, recursive_hash_eq_def, if_neg (by decide), if_neg (by decide)]
  simp [toVDict, List.filter_append, excludedKey_of_mem hk]

theorem arg_hash_excluded_attempt_invariant (names ig : List String) (h : String)
    (args : List Value) (kwargs : List (String × Value)) (n1 n2 : Int)
    (hk : "_n_attempt_cache_id" ∈ ig) :
    arg_hash names ig h args kwargs n1 = arg_hash names ig h args kwargs n2 := by
  unfold arg_hash
  rw [dictSet_of_key_absent _ _ (.vInt n1) (popIgnored_key_absent kwargs ig _ hk),
    dictSet_of_key_absent _ _ (.vInt n2) (popIgnored_key_absent kwargs ig _ hk),
    recursive_hash_drop_trailing_excluded _ _ _ (.vInt n1) hk,
    recursive_hash_drop_trailing_excluded _ _ _ (.vInt n2) hk]

/-- C7 counterexample: a wrapped call can see EQUAL cache keys for distinct
disambiguators — when the reserved name `_n_attempt_cache_id` is itself
listed in `ignore_params`, the entry injected on line 74 is skipped by the
dict filter of `recursive_hash` (line 35), so the disambiguator contributes
nothing: attempts `0` and `1` derive the same cache key and hence the same
entry, not independent ones. -/
theorem disambiguator_ignored_same_key_counterexample :
    (0 : Int) ≠ 1 ∧
      arg_hash [] ["_n_attempt_cache_id"] (hash_code "s") [] [] 0 =
        arg_hash [] ["_n_attempt_cache_id"] (hash_code "s") [] [] 1 ∧
      cache_file "m" "f" (arg_hash [] ["_n_attempt_cache_id"] (hash_code "s") [] [] 0) =
        cache_file "m" "f" (arg_hash [] ["_n_attempt_cache_id"] (hash_code "s") [] [] 1) :=
  ⟨by decide, rfl, rfl⟩

/-- C7 amended: provided the reserved name is not in the exclusion set, the
disambiguator is injected into the named-argument record under
`_n_attempt_cache_id` before fingerprinting, and the attempt ids 0, 1, 2
and 3 — the default and typical retries — derive pairwise distinct cache
keys (hence independent entries) with otherwise-identical arguments; if the
reserved name IS excluded, the injected entry is skipped by the dict filter
and every disambiguator derives the same key. -/
theorem disambiguator_reserved_name_distinct_keys :
    (∀ (kwargs : List (String × Value)) (ig : List String) (n : Int),
        lookupKey (dictSet (popIgnored kwargs ig) "_n_attempt_cache_id" (.vInt n))
          "_n_attempt_cache_id" = some (.vInt n)) ∧
      (([0, 1, 2, 3] : List Int).map
          (fun n => arg_hash ["x"] [] (hash_code "s") [.vInt 4] [] n)).Nodup ∧
      ∀ (names ig : List String) (h : String) (args : List Value)
          (kwargs : List (String × Value)) (n1 n2 : Int),
          "_n_attempt_cache_id" ∈ ig →
            arg_hash names ig h args kwargs n1 = arg_hash names ig h args kwargs n2 := by
  refine ⟨fun kwargs ig n => lookupKey_dictSet_self _ _ _, by decide, ?_⟩
  intro names ig h args kwargs n1 n2 hk
  exact arg_hash_excluded_attempt_invariant names ig h args kwargs n1 n2 hk

theorem disambiguator_reserved_name_distinct_keys_witness :
    "_n_attempt_cache_id" ∈ (["_n_attempt_cache_id"] : List String) ∧
      arg_hash ["y"] ["_n_attempt_cache_id"] (hash_code "t") [.vInt 5] [] 5 =
        arg_hash ["y"] ["_n_attempt_cache_id"] (hash_code "t") [.vInt 5] [] 9 ∧
      lookupKey (dictSet (popIgnored [] []) "_n_attempt_cache_id" (.vInt 3))
        "_n_attempt_cache_id" = some (.vInt 3) :=
  ⟨by decide,
    disambiguator_reserved_name_distinct_keys.2.2 ["y"] ["_n_attempt_cache_id"]
      (hash_code "t") [.vInt 5] [] 5 9 (by decide),
    disambiguator_reserved_name_distinct_keys.1 [] [] 3⟩

/-- C8 counterexample: passing the value `4` positionally for parameter `x`
and passing it as the named argument `x = 4` derive DIFFERENT cache keys,
because the mapped-positional record and the keyword record are hashed
separately, not combined. -/
theorem positional_vs_named_key_counterexample :
    arg_hash ["x"] [] (hash_code "s") [.vInt 4] [] 0 ≠
      arg_hash ["x"] [] (hash_code "s") [] [("x", .vInt 4)] 0 := by decide

/-- C8 amended: the mapped positional arguments and the named arguments are
NOT combined into a single record — each record separately has excluded
names removed and is fingerprinted on its own, the two digests being
concatenated (positionals first) — so passing the same value positionally
versus as a named argument generally yields different cache keys. -/
theorem positional_and_named_records_hashed_separately :
    (∀ (names ig : List String) (h : String) (args : List Value)
        (kwargs : List (String × Value)) (n : Int),
        arg_hash names ig h args kwargs n =
          recursive_hash (toVDict (popIgnored (names.zip args) ig)) 0 ig ++
            recursive_hash (toVDict (dictSet (popIgnored kwargs ig)
              "_n_attempt_cache_id" (.vInt n))) 0 ig ++ h) ∧
      arg_hash ["x"] [] (hash_code "s") [.vInt 4] [] 0 ≠
        arg_hash ["x"] [] (hash_code "s") [] [("x", .vInt 4)] 0 :=
  ⟨fun _ _ _ _ _ _ => rfl, by decide⟩

/-- C1: starting from a store with no entry for the derived key, a first
call with a pure computation executes the body (flag `true`), stores the
result, and a second call with the same arguments and disambiguator returns
the stored result (equal to the first result) without executing the body
(flag `false`) and without changing the store — the body runs exactly once
across the two calls. -/
theorem wrapper_computes_once_then_hits {α β ε : Type}
    (f : List Value → List (String × Value) → Except ε α) (dump : α → Option β)
    (load : β → Option α) (mn fn : String) (names ig : List String) (src : String)
    (args : List Value) (kwargs : List (String × Value)) (n : Int)
    (fs : List (String × β)) (file : String) (blob : β) (r : α)
    (hfile : file = cache_file mn fn (arg_hash names ig (hash_code src) args kwargs n))
    (hmiss : lookupKey fs file = none) (hf : f args kwargs = .ok r)
    (hdump : dump r = some blob) (hload : load blob = some r) :
    wrapper f dump load mn fn names ig src args kwargs n fs =
        (.ok r, dictSet fs file blob, true) ∧
      wrapper f dump load mn fn names ig src args kwargs n (dictSet fs file blob) =
        (.ok r, dictSet fs file blob, false) := by
  subst hfile
  constructor
  · simp only [wrapper, wrapperGo, computeAndStore, hmiss, hf, hdump]
  · simp only [wrapper, wrapperGo, lookupKey_dictSet_self, hload]

theorem wrapper_computes_once_then_hits_witness :
    (lookupKey ([] : List (String × Value)) witFile = none) ∧
      squareF [.vInt 4] [] = .ok (.vInt 16) ∧
      wrapper squareF some some "m" "f" ["x"] [] "s" [.vInt 4] [] 0 [] =
        (.ok (.vInt 16), dictSet [] witFile (.vInt 16), true) ∧
      wrapper squareF some some "m" "f" ["x"] [] "s" [.vInt 4] [] 0
          (dictSet [] witFile (.vInt 16)) =
        (.ok (.vInt 16), dictSet [] witFile (.vInt 16), false) := by
  refine ⟨rfl, rfl, ?_⟩
  exact wrapper_computes_once_then_hits squareF some some "m" "f" ["x"] [] "s" [.vInt 4] []
    0 [] witFile (.vInt 16) (.vInt 16) rfl rfl rfl rfl rfl

/-- C2: cache-infrastructure failures never reach the caller — a failed
read (`pickle.load`) recomputes and returns the fresh result; a failed
write (`pickle.dump`) still returns the fresh result with the store
unchanged; only an exception of the computation itself propagates,
unmodified, with nothing stored. -/
theorem wrapper_infrastructure_failures_invisible {α β ε : Type}
    (f : List Value → List (String × Value) → Except ε α) (dump : α → Option β)
    (load : β → Option α) (mn fn : String) (names ig : List String) (src : String)
    (args : List Value) (kwargs : List (String × Value)) (n : Int) (file : String)
    (hfile : file = cache_file mn fn (arg_hash names ig (hash_code src) args kwargs n)) :
    (∀ (fs : List (String × β)) (blob : β) (r : α),
        lookupKey fs file = some blob → load blob = none → f args kwargs = .ok r →
          (wrapper f dump load mn fn names ig src args kwargs n fs).1 = .ok r ∧
            (wrapper f dump load mn fn names ig src args kwargs n fs).2.2 = true) ∧
      (∀ (fs : List (String × β)) (r : α),
          lookupKey fs file = none → f args kwargs = .ok r → dump r = none →
            wrapper f dump load mn fn names ig src args kwargs n fs = (.ok r, fs, true)) ∧
      ∀ (fs : List (String × β)) (e : ε),
          lookupKey fs file = none → f args kwargs = .error e →
            wrapper f dump load mn fn names ig src args kwargs n fs =
              (.error e, fs, true) := by
  subst hfile
  refine ⟨?_, ?_, ?_⟩
  · intro fs blob r hlook hload hf
    simp only [wrapper, wrapperGo, computeAndStore, hlook, hload, hf]
    cases dump r <;> exact ⟨rfl, rfl⟩
  · intro fs r hmiss hf hdump
    simp only [wrapper, wrapperGo, computeAndStore, hmiss, hf, hdump]
  · intro fs e hmiss hf
    simp only [wrapper, wrapperGo, computeAndStore, hmiss, hf]

theorem wrapper_infrastructure_failures_invisible_witness :
    (lookupKey [(witFile, Value.vInt 7)] witFile = some (.vInt 7) ∧
      failingLoad (.vInt 7) = none ∧
      (wrapper squareF some failingLoad "m" "f" ["x"] [] "s" [.vInt 4] [] 0
          [(witFile, Value.vInt 7)]).1 = .ok (.vInt 16) ∧
      (wrapper squareF some failingLoad "m" "f" ["x"] [] "s" [.vInt 4] [] 0
          [(witFile, Value.vInt 7)]).2.2 = true) ∧
    (lookupKey ([] : List (String × Value)) witFile = none ∧
      failingDump (.vInt 16) = none ∧
      wrapper squareF failingDump some "m" "f" ["x"] [] "s" [.vInt 4] [] 0 [] =
        (.ok (.vInt 16), [], true)) ∧
    (raisingF [.vInt 4] [] = .error () ∧
      wrapper raisingF some some "m" "f" ["x"] [] "s" [.vInt 4] [] 0 [] =
        (.error (), [], true)) := by
  have hlook : lookupKey [(witFile, Value.vInt 7)] witFile = some (.vInt 7) := by
    unfold lookupKey
    rw [if_pos (by decide)]
  refine ⟨⟨hlook, rfl, ?_, ?_⟩, ⟨rfl, rfl, ?_⟩, ⟨rfl, ?_⟩⟩
  · exact ((wrapper_infrastructure_failures_invisible squareF some failingLoad "m" "f"
      ["x"] [] "s" [.vInt 4] [] 0 witFile rfl).1 [(witFile, Value.vInt 7)] (.vInt 7)
      (.vInt 16) hlook rfl rfl).1
  · exact ((wrapper_infrastructure_failures_invisible squareF some failingLoad "m" "f"
      ["x"] [] "s" [.vInt 4] [] 0 witFile rfl).1 [(witFile, Value.vInt 7)] (.vInt 7)
      (.vInt 16) hlook rfl rfl).2
  · exact (wrapper_infrastructure_failures_invisible squareF failingDump some "m" "f"
      ["x"] [] "s" [.vInt 4] [] 0 witFile rfl).2.1 [] (.vInt 16) rfl rfl rfl
  · exact (wrapper_infrastructure_failures_invisible raisingF some some "m" "f"
      ["x"] [] "s" [.vInt 4] [] 0 witFile rfl).2.2 [] () rfl rfl

end FileCache
